import Mathlib

/-!
Verification of the Repository Catalog & Installation/Integrity subsystem of
`abipy/scripts/abips.py` (the `abips` CLI over pseudopotential repositories).

The CLI file is embedded directly from the source.  The catalog module it
imports (`abipy.flowtk.psrepos`: `ALL_REPOS`, `PseudosRepo`, `repos_from_id_list`,
and the repo methods `is_installed`, `install`, `validate_checksums`,
`get_pseudos`, `from_dirpath`) is not part of the repository snapshot, so those
operations are either taken as oracle parameters of the environment (when a
claim quantifies over their behavior) or modelled from the spec (when a claim
is about the operation itself); each spec-modelled definition says so in its
doc comment.

Side effects are made explicit: printing becomes a list of output lines,
`input()` becomes an optional answer string (`none` models `EOFError`),
`install` calls are collected into a list, and a Python exception escaping a
function is an `Except.error`.
-/

set_option autoImplicit false

namespace Abips

/-- Pseudopotential formalism category of a repository (spec §3: variant over
norm-conserving / projector-augmented-wave). -/
inductive Category where
  | nc
  | paw
  deriving DecidableEq, Repr

/-- Relativity treatment (spec §3: scalar-relativistic / fully-relativistic). -/
inductive Relativity where
  | sr
  | fr
  deriving DecidableEq, Repr

/-- Modelled from the spec: the Repository Descriptor (spec §3), the immutable
value describing one publishable bundle.  The class `PseudosRepo` lives in
`abipy.flowtk.psrepos`, which is not in the repository snapshot; the fields
here are the identity fields the spec names (id, name, category, functional,
relativity, format, version). -/
structure Repo where
  rid : Nat
  name : String
  category : Category
  xc : String
  relativity : Relativity
  fmt : String
  version : String
  deriving DecidableEq, Repr

/-- Embeds `repo.isnc` — true for norm-conserving repositories. -/
def Repo.isnc (r : Repo) : Bool := r.category = Category.nc

/-- Embeds `repo.ispaw` — true for projector-augmented-wave repositories. -/
def Repo.ispaw (r : Repo) : Bool := r.category = Category.paw

/-- Modelled from the spec: the deterministic directory name the Installation
Locator derives from a descriptor's identity fields (spec §6: "named
deterministically from the Descriptor's identity fields (category, functional,
relativity/format, version)"). -/
def repo_dirname (r : Repo) : String :=
  (match r.category with | Category.nc => "NC" | Category.paw => "PAW")
    ++ "-" ++ r.xc
    ++ "-" ++ (match r.relativity with | Relativity.sr => "SR" | Relativity.fr => "FR")
    ++ "-" ++ r.fmt
    ++ "-v" ++ r.version

/-- Modelled from the spec: `directoryFor(descriptor, root)` of the
Installation Locator (spec §4.2), a pure function of the descriptor and the
root: the per-descriptor directory directly under the root. -/
def directoryFor (r : Repo) (root : String) : String :=
  root ++ "/" ++ repo_dirname r

/-- Modelled from the spec: the fixed Registry `ALL_REPOS` (spec §2/§9: a
module-level constant ordered catalog with unique ids).  The real catalog
lives in `abipy.flowtk.psrepos`, absent from the snapshot; this fixture
follows the spec's data model (NC repos with relativity/format variants, PAW
repos with the single `pawxml` format) and the ids used in the spec's
examples. -/
def repo_nc_pbe_sr : Repo := ⟨1, "ONCVPSP-PBE-SR", Category.nc, "PBE", Relativity.sr, "psp8", "0.4"⟩

def repo_nc_pbe_fr : Repo := ⟨2, "ONCVPSP-PBE-FR", Category.nc, "PBE", Relativity.fr, "psp8", "0.4"⟩

def repo_nc_pbesol_sr : Repo := ⟨3, "ONCVPSP-PBEsol-SR", Category.nc, "PBEsol", Relativity.sr, "psp8", "0.4"⟩

def repo_paw_lda : Repo := ⟨4, "ATOMPAW-LDA", Category.paw, "LDA", Relativity.sr, "pawxml", "1.0"⟩

def repo_paw_pbe : Repo := ⟨5, "ATOMPAW-PBE", Category.paw, "PBE", Relativity.sr, "pawxml", "1.0"⟩

def ALL_REPOS : List Repo :=
  [repo_nc_pbe_sr, repo_nc_pbe_fr, repo_nc_pbesol_sr, repo_paw_lda, repo_paw_pbe]

/-- Modelled from the spec: `repos_from_id_list` of `abipy.flowtk.psrepos`
(spec §4.1 `byIds`): for each requested id, in input order, find the matching
descriptor in the catalog; fail with `UnknownRepositoryId` (the offending id
as the error value) when no match exists, returning no partial result. -/
def repos_from_id_list (catalog : List Repo) : List Nat → Except Nat (List Repo)
  | [] => Except.ok []
  | i :: rest =>
    match catalog.find? (fun r => r.rid == i) with
    | none => Except.error i
    | some r =>
      match repos_from_id_list catalog rest with
      | Except.error j => Except.error j
      | Except.ok l => Except.ok (r :: l)

/-- Modelled from the spec: `PseudosRepo.from_dirpath` (spec §4.1
`fromInstalledDirectory`): reconstruct a descriptor from a directory name
previously produced by the Installation Locator; fail with
`UnrecognizedDirectoryName` (here the error message string) if the name does
not parse to any known descriptor encoding.  The embedding passes the
directory's base name (the CLI joins it with the root for display only). -/
def from_dirpath (catalog : List Repo) (dname : String) : Except String Repo :=
  match catalog.find? (fun r => repo_dirname r == dname) with
  | some r => Except.ok r
  | none => Except.error ("UnrecognizedDirectoryName: " ++ dname)

/-! ## The CLI environment

`Env` packages the external state and collaborators a CLI command touches:
the registry, the filesystem listing of the root directory, the installation
predicate, the checksum validator and the interactive answer.  Operations the
snapshot does not contain are oracle functions here, so the theorems quantify
over every behavior they may have. -/

/-- External state/collaborators of one CLI invocation. -/
structure Env where
  /-- The registry `ALL_REPOS` as seen by the CLI. -/
  allRepos : List Repo
  /-- Result of `os.listdir(repos_root)`: entry names directly under the root. -/
  listing : List String
  /-- Result of `os.path.isdir(os.path.join(repos_root, name))` for an entry name. -/
  isDir : String → Bool
  /-- Oracle for `repo.is_installed(repos_root)` at the time of the check. -/
  is_installed : Repo → Bool
  /-- Oracle for `repo.validate_checksums(repos_root, verbose)`: `ok` when it
  returns normally, `error msg` when it raises an exception. -/
  validate : Repo → Except String Unit
  /-- Result of `input(...)`: `none` models `EOFError` (closed stdin). -/
  answer : Option String

/-- Parsed command-line options relevant to the embedded commands. -/
structure Options where
  verbose : Nat
  yes : Bool
  checksums : Bool
  id_list : List Nat

/-- Embeds Python `str.lower()` for the interactive answer (ASCII case
mapping, character by character). -/
def py_lower (s : String) : String := ⟨s.data.map Char.toLower⟩

/-- Embeds Python `str.strip()`: remove leading and trailing whitespace. -/
def py_strip (s : String) : String :=
  ⟨((s.data.dropWhile Char.isWhitespace).reverse.dropWhile Char.isWhitespace).reverse⟩

/-- Embeds `user_wants_to_abort` (abips.py lines 11–18): read an answer; on
`EOFError` return `False`; otherwise return whether the answer, lowercased and
stripped, is `n` or `no` (`answer.lower().strip() in ["n", "no"]`). -/
def user_wants_to_abort (answer : Option String) : Bool :=
  match answer with
  | none => false
  | some a => decide (py_strip (py_lower a) ∈ ["n", "no"])

/-- Result of the `list` command, with its side effects made explicit. -/
structure ListResult where
  retcode : Nat
  /-- The reconstructed repositories, sorted by id (the batch the checksum
  loop runs over). -/
  repos : List Repo
  /-- The `exc_list`: the exceptions collected by the checksum loop, in order. -/
  excs : List String
  /-- Printed lines (messages; collected exception messages are printed at
  the end). -/
  out : List String
  deriving DecidableEq, Repr

/-- Embeds `sorted(repos, key=lambda repo: repo.rid)` — stable insertion sort. -/
def insert_by_rid (r : Repo) : List Repo → List Repo
  | [] => [r]
  | x :: xs => if r.rid ≤ x.rid then r :: x :: xs else x :: insert_by_rid r xs

/-- Sort a repo list by `rid` (embeds `sorted(..., key=lambda repo: repo.rid)`). -/
def sort_by_rid : List Repo → List Repo
  | [] => []
  | x :: xs => insert_by_rid x (sort_by_rid xs)

/-- Embeds `[PseudosRepo.from_dirpath(dirpath) for dirpath in dirpaths]` — a Python
list comprehension propagates the first raised exception. -/
def parse_dirs (catalog : List Repo) : List String → Except String (List Repo)
  | [] => Except.ok []
  | n :: rest =>
    match from_dirpath catalog n with
    | Except.error e => Except.error e
    | Except.ok r =>
      match parse_dirs catalog rest with
      | Except.error e => Except.error e
      | Except.ok l => Except.ok (r :: l)

/-- The checksum loop of `abips_list` (lines 62–67): try
`validate_checksums` on every repo, appending each raised exception to
`exc_list` and continuing. -/
def validate_loop (validate : Repo → Except String Unit) : List Repo → List String
  | [] => []
  | r :: rs =>
    match validate r with
    | Except.ok _ => validate_loop validate rs
    | Except.error e => e :: validate_loop validate rs

/-- Embeds `abips_list` (lines 33–74).  Keeps every directory entry of the root
(filtering only non-directories), reconstructs a repo from each, sorts by id,
and — when `--checksums` is given — runs the best-effort validation loop,
prints the collected exceptions at the end and returns their count.  The
verbose per-repo pseudo-table printing (lines 51–57) is print-only and is
omitted from the observable result.  An exception escaping
`from_dirpath` propagates out of the command (`Except.error`). -/
def abips_list (env : Env) (opts : Options) : Except String ListResult :=
  let dirnames := env.listing.filter env.isDir
  if dirnames.isEmpty then
    Except.ok ⟨0, [], [], ["Could not find any pseudopotential repository installed"]⟩
  else
    match parse_dirs env.allRepos dirnames with
    | Except.error e => Except.error e
    | Except.ok repos0 =>
      let repos := sort_by_rid repos0
      let out0 := ["The following pseudopotential repositories are installed:"]
      if !opts.checksums then
        Except.ok ⟨0, repos, [], out0⟩
      else
        let excs := validate_loop env.validate repos
        let out :=
          if excs.isEmpty then out0
          else out0 ++ ["List of exceptions raised by validate_checksums:"] ++ excs
        Except.ok ⟨excs.length, repos, excs, out⟩

/-- Result of an install-driving command (`nc_get`, `paw_get`, `get_byid`),
with its side effects made explicit. -/
structure InstallCmdResult where
  retcode : Nat
  /-- The repos on which `repo.install(repos_root, verbose)` was called, in
  order. -/
  installs : List Repo
  /-- Whether the interactive confirmation prompt was shown (`input()` read). -/
  prompted : Bool
  /-- Whether `abips_list(options)` was invoked at the end (its return value
  is discarded by these commands). -/
  listed : Bool
  deriving DecidableEq, Repr

/-- Embeds `abips_nc_get` (lines 86–106): select the registered NC repos not already
installed; if none, print a message and return 0; otherwise, unless `--yes`
was given, prompt, and return 2 if the user aborts; else install each
selected repo, run `abips_list` (result discarded) and return 0. -/
def abips_nc_get (env : Env) (opts : Options) : InstallCmdResult :=
  let repos := env.allRepos.filter (fun r => r.isnc && !env.is_installed r)
  if repos.isEmpty then ⟨0, [], false, false⟩
  else if !opts.yes && user_wants_to_abort env.answer then ⟨2, [], true, false⟩
  else ⟨0, repos, !opts.yes, true⟩

/-- Embeds `abips_paw_get` (lines 109–128): same shape as `abips_nc_get`, over the
registered PAW repos. -/
def abips_paw_get (env : Env) (opts : Options) : InstallCmdResult :=
  let repos := env.allRepos.filter (fun r => r.ispaw && !env.is_installed r)
  if repos.isEmpty then ⟨0, [], false, false⟩
  else if !opts.yes && user_wants_to_abort env.answer then ⟨2, [], true, false⟩
  else ⟨0, repos, !opts.yes, true⟩

/-- Embeds `abips_get_byid` (lines 131–153): resolve the requested ids (an unknown id
raises, propagated as `Except.error`), drop repos already installed; if none
remain, print a message, run `abips_list` and return 1; otherwise prompt as in
`nc_get`, then install each remaining repo and return 0. -/
def abips_get_byid (env : Env) (opts : Options) : Except Nat InstallCmdResult :=
  match repos_from_id_list env.allRepos opts.id_list with
  | Except.error i => Except.error i
  | Except.ok sel =>
    let repos := sel.filter (fun r => !env.is_installed r)
    if repos.isEmpty then Except.ok ⟨1, [], false, true⟩
    else if !opts.yes && user_wants_to_abort env.answer then Except.ok ⟨2, [], true, false⟩
    else Except.ok ⟨0, repos, !opts.yes, true⟩

/-- Result of the `show` command, with its side effects made explicit. -/
structure ShowResult where
  retcode : Nat
  /-- The `repo.get_pseudos(repos_root, table_accuracy=...)` calls made, as
  (repo, accuracy) pairs in order. -/
  pseudosCalls : List (Repo × String)
  /-- Whether `abips_list(options)` was invoked (installed listing printed). -/
  listed : Bool
  deriving DecidableEq, Repr

/-- Embeds `abips_show` (lines 156–173): resolve the requested ids, keep only the
repos not already installed; if none remain, print a message, run `abips_list`
and return 1; otherwise call `get_pseudos` with `table_accuracy="standard"` on
each remaining repo and return 0. -/
def abips_show (env : Env) (opts : Options) : Except Nat ShowResult :=
  match repos_from_id_list env.allRepos opts.id_list with
  | Except.error i => Except.error i
  | Except.ok sel =>
    let repos := sel.filter (fun r => !env.is_installed r)
    if repos.isEmpty then Except.ok ⟨1, [], true⟩
    else Except.ok ⟨0, repos.map (fun r => (r, "standard")), false⟩

/-! ## Concrete fixtures used by witnesses and counterexamples -/

/-- Options with every flag off. -/
def opts_plain : Options := ⟨0, false, false, []⟩

/-- Options with `--checksums` on. -/
def opts_checksums : Options := ⟨0, false, true, []⟩

/-- Options with `--yes` and `id_list [4]`. -/
def opts_yes_id4 : Options := ⟨0, true, false, [4]⟩

/-- Options with `id_list [4, 5]` and no flags. -/
def opts_ids_4_5 : Options := ⟨0, false, false, [4, 5]⟩

/-- Root with one installed repository whose checksum validation raises. -/
def env_validate_fail : Env :=
  ⟨ALL_REPOS, [repo_dirname repo_paw_lda], fun _ => true, fun _ => false,
    fun _ => Except.error "boom", none⟩

/-- Empty root, nothing installed, user answered `y`. -/
def env_fresh : Env :=
  ⟨ALL_REPOS, [], fun _ => false, fun _ => false, fun _ => Except.ok (), some "y"⟩

/-- Empty root, nothing installed, stdin closed (`input()` raises `EOFError`). -/
def env_eof : Env :=
  ⟨ALL_REPOS, [], fun _ => false, fun _ => false, fun _ => Except.ok (), none⟩

/-- Nothing installed, user answered `" No "` (aborts after lowercase+strip). -/
def env_answer_no : Env :=
  ⟨ALL_REPOS, [], fun _ => false, fun _ => false, fun _ => Except.ok (), some " No "⟩

/-- Repository 4 installed, the rest absent; user answered `y`. -/
def env_paw4_installed : Env :=
  ⟨ALL_REPOS, [], fun _ => false, fun r => decide (r.rid = 4), fun _ => Except.ok (), some "y"⟩

/-- Root containing one recognized repository directory and one unrelated
directory. -/
def env_unrelated_dir : Env :=
  ⟨ALL_REPOS, [repo_dirname repo_nc_pbe_sr, "not-a-repo"], fun _ => true, fun _ => false,
    fun _ => Except.ok (), none⟩

/-- The `list` result on `env_validate_fail` with `--checksums`. -/
def res_validate_fail : ListResult :=
  ⟨1, [repo_paw_lda], ["boom"],
    ["The following pseudopotential repositories are installed:",
      "List of exceptions raised by validate_checksums:", "boom"]⟩

/-! ## Installer model (spec §4.3)

`repo.install(repos_root, verbose)` lives in the missing catalog module; the
spec describes its mechanism: download and unpack into a temporary staging
location, then atomically rename into place.  The model makes every
intermediate state of one install run explicit so interruption at any point
can be examined. -/

/-- Modelled from the spec: the filesystem as the Installer sees it —
directory names present directly under the root, plus the temporary staging
area (outside the root), each staged entry recording how many files have been
unpacked so far. -/
structure FsState where
  rootDirs : List String
  staging : List (String × Nat)
  deriving DecidableEq, Repr

/-- Modelled from the spec: `isInstalled(descriptor, root)` (spec §4.2) — a
directory for the descriptor exists under the root. -/
def is_installed_fs (d : Repo) (fs : FsState) : Bool :=
  decide (repo_dirname d ∈ fs.rootDirs)

/-- Modelled from the spec: the sequence of filesystem states of one
`install(d, root)` run unpacking `nfiles` files (spec §4.3 atomicity): first
the staged states (archive downloaded, 0, 1, …, `nfiles` files unpacked and
verified in the temporary location, the root untouched), and last the state
after the atomic rename, which moves the finished directory under the root.
An interrupted run stops at one of the non-final states. -/
def install_trace (fs : FsState) (d : Repo) (nfiles : Nat) : List FsState :=
  ((List.range (nfiles + 1)).map
      (fun k => ⟨fs.rootDirs, (repo_dirname d, k) :: fs.staging⟩))
    ++ [⟨repo_dirname d :: fs.rootDirs, fs.staging⟩]

/-! ## Checksum Validator model (spec §4.4)

`repo.validate_checksums` also lives in the missing catalog module; the spec
describes it: recompute each installed file's digest, compare with the
manifest recorded at install time, collect one `IntegrityViolation` per
mismatch or missing file, scanning exhaustively.  Digests are modelled
abstractly as naturals; corrupting a byte of a file changes its digest. -/

/-- Modelled from the spec: one reportable integrity discrepancy
(spec §4.4: `IntegrityViolation{file, expected, actual|absent}`). -/
structure IntegrityViolation where
  file : String
  expected : Nat
  actual : Option Nat
  deriving DecidableEq, Repr

/-- Modelled from the spec: an installed bundle — the manifest of expected
per-file digests recorded at install time, and the files actually on disk
with their current digests. -/
structure Bundle where
  manifest : List (String × Nat)
  files : List (String × Nat)
  deriving DecidableEq, Repr

/-- Modelled from the spec: the exhaustive scan of `validate` (spec §4.4) —
for each file expected by the manifest, recompute (look up) its digest and
compare; a missing file or a mismatch contributes one violation; the scan
never stops early. -/
def check_files (manifest files : List (String × Nat)) : List IntegrityViolation :=
  manifest.filterMap fun p =>
    match files.lookup p.1 with
    | none => some ⟨p.1, p.2, none⟩
    | some act => if act = p.2 then none else some ⟨p.1, p.2, some act⟩

/-- Modelled from the spec: `validate(descriptor, root)` on the bundle found
at the descriptor's directory — fatally `NotInstalledError` only when no
installed bundle exists at all; otherwise the (possibly empty) violation
list. -/
def validate_repo : Option Bundle → Except String (List IntegrityViolation)
  | none => Except.error "NotInstalledError"
  | some b => Except.ok (check_files b.manifest b.files)

/-- Modelled from the spec: `validate(descriptor, root)` — look up the
descriptor's directory under the root (`bundles` maps directory names to the
bundle installed there, if any) and validate it. -/
def validate_at (bundles : String → Option Bundle) (d : Repo) :
    Except String (List IntegrityViolation) :=
  validate_repo (bundles (repo_dirname d))

/-- Corrupt one file of an installed bundle: its digest changes (one changed
byte re-hashes to a different digest, modelled as `+ 1`); all other files are
untouched. -/
def corrupt_file (files : List (String × Nat)) (f : String) : List (String × Nat) :=
  files.map fun p => (p.1, if p.1 = f then p.2 + 1 else p.2)

/-! ## Helper lemmas -/

theorem lookup_map_digest (g : String → Nat → Nat) :
    ∀ m : List (String × Nat), (m.map Prod.fst).Nodup →
      ∀ p ∈ m, (m.map fun q => (q.1, g q.1 q.2)).lookup p.1 = some (g p.1 p.2) := by
  intro m
  induction m with
  | nil => intro _ p hp; cases hp
  | cons q m ih =>
    intro hnd p hp
    simp only [List.map_cons, List.nodup_cons] at hnd
    rcases List.mem_cons.mp hp with rfl | hp2
    · simp [List.lookup_cons]
    · have hne : p.1 ≠ q.1 := by
        intro he
        exact hnd.1 (he ▸ List.mem_map_of_mem Prod.fst hp2)
      rw [List.map_cons, List.lookup_cons, beq_false_of_ne hne]
      exact ih hnd.2 p hp2

theorem check_files_of_lookup (g : String → Nat → Nat) (files : List (String × Nat)) :
    ∀ m : List (String × Nat),
      (∀ p ∈ m, files.lookup p.1 = some (g p.1 p.2)) →
      check_files m files
        = m.filterMap fun p =>
            if g p.1 p.2 = p.2 then none
            else some ⟨p.1, p.2, some (g p.1 p.2)⟩ := by
  intro m
  induction m with
  | nil => intro _; rfl
  | cons p m ih =>
    intro h
    have hp := h p (List.mem_cons_self p m)
    have hrest := ih fun q hq => h q (List.mem_cons_of_mem p hq)
    by_cases hc : g p.1 p.2 = p.2
    · simp only [check_files, List.filterMap_cons, hp, hc, if_pos rfl] at *
      simpa [hc] using hrest
    · simp only [check_files, List.filterMap_cons, hp] at *
      simpa [hc] using hrest

theorem filterMap_if {α β : Type} (pred : α → Prop) [DecidablePred pred] (g : α → β) :
    ∀ l : List α,
      (l.filterMap fun a => if pred a then some (g a) else none)
        = (l.filter fun a => decide (pred a)).map g := by
  intro l
  induction l with
  | nil => rfl
  | cons a l ih => by_cases h : pred a <;> simp [List.filterMap_cons, h, ih]

theorem filter_key_single :
    ∀ (m : List (String × Nat)) (f : String) (e : Nat),
      (m.map Prod.fst).Nodup → (f, e) ∈ m →
      (m.filter fun p => decide (p.1 = f)) = [(f, e)] := by
  intro m
  induction m with
  | nil => intro f e _ hm; cases hm
  | cons q m ih =>
    intro f e hnd hm
    simp only [List.map_cons, List.nodup_cons] at hnd
    rcases List.mem_cons.mp hm with rfl | hm2
    · have hrest : (m.filter fun p => decide (p.1 = (f, e).1)) = [] := by
        rw [List.filter_eq_nil_iff]
        intro p hp
        simp only [decide_eq_true_eq]
        intro he
        have hmem : p.1 ∈ m.map Prod.fst := List.mem_map_of_mem Prod.fst hp
        rw [he] at hmem
        exact hnd.1 hmem
      simp [List.filter_cons, hrest]
    · have hne : q.1 ≠ f := by
        intro he
        have hmem : (f, e).1 ∈ m.map Prod.fst := List.mem_map_of_mem Prod.fst hm2
        rw [← he] at hmem
        exact hnd.1 hmem
      simp only [List.filter_cons, hne, decide_eq_true_eq, if_neg hne]
      exact ih f e hnd.2 hm2

theorem countP_key_or (f1 f2 : String) (hne : f1 ≠ f2) :
    ∀ m : List (String × Nat),
      (m.countP fun p => decide (p.1 = f1 ∨ p.1 = f2))
        = (m.countP fun p => decide (p.1 = f1)) + (m.countP fun p => decide (p.1 = f2)) := by
  intro m
  induction m with
  | nil => rfl
  | cons q m ih =>
    rw [List.countP_cons, List.countP_cons, List.countP_cons, ih]
    by_cases h1 : q.1 = f1
    · by_cases h2 : q.1 = f2
      · exact absurd (h1 ▸ h2) hne
      · simp [h1, h2, hne, Ne.symm hne]; omega
    · by_cases h2 : q.1 = f2 <;> (simp [h1, h2, hne, Ne.symm hne]; try omega)

theorem check_files_fresh (m : List (String × Nat)) (hnd : (m.map Prod.fst).Nodup) :
    check_files m m = [] := by
  have hmap : (m.map fun q => (q.1, (fun (_ : String) (e : Nat) => e) q.1 q.2)) = m := by
    simp
  have hlook : ∀ p ∈ m, m.lookup p.1 = some p.2 := by
    intro p hp
    have h := lookup_map_digest (fun _ e => e) m hnd p hp
    rwa [hmap] at h
  rw [check_files_of_lookup (fun _ e => e) m m hlook]
  simp

theorem check_files_corrupt_single (m : List (String × Nat)) (f : String) (e : Nat)
    (hnd : (m.map Prod.fst).Nodup) (hm : (f, e) ∈ m) :
    check_files m (corrupt_file m f) = [⟨f, e, some (e + 1)⟩] := by
  have hcf : corrupt_file m f
      = m.map fun q => (q.1, (fun x d => if x = f then d + 1 else d) q.1 q.2) := rfl
  have hlook : ∀ p ∈ m, (corrupt_file m f).lookup p.1
      = some (if p.1 = f then p.2 + 1 else p.2) := by
    intro p hp
    rw [hcf]
    simpa using lookup_map_digest (fun x d => if x = f then d + 1 else d) m hnd p hp
  rw [check_files_of_lookup (fun x d => if x = f then d + 1 else d) (corrupt_file m f) m hlook]
  have hcong : ∀ p ∈ m,
      (if (if p.1 = f then p.2 + 1 else p.2) = p.2 then none
        else some (⟨p.1, p.2, some (if p.1 = f then p.2 + 1 else p.2)⟩ : IntegrityViolation))
      = if p.1 = f then some (⟨p.1, p.2, some (p.2 + 1)⟩ : IntegrityViolation) else none := by
    intro p _
    by_cases hc : p.1 = f <;> simp [hc]
  rw [List.filterMap_congr hcong,
    filterMap_if (fun p : String × Nat => p.1 = f)
      (fun p : String × Nat => (⟨p.1, p.2, some (p.2 + 1)⟩ : IntegrityViolation)) m,
    filter_key_single m f e hnd hm]
  rfl

theorem check_files_corrupt_two (m : List (String × Nat)) (f1 f2 : String) (e1 e2 : Nat)
    (hnd : (m.map Prod.fst).Nodup) (h1 : (f1, e1) ∈ m) (h2 : (f2, e2) ∈ m)
    (hne : f1 ≠ f2) :
    (check_files m (corrupt_file (corrupt_file m f1) f2)).length = 2
    ∧ (⟨f1, e1, some (e1 + 1)⟩ : IntegrityViolation)
        ∈ check_files m (corrupt_file (corrupt_file m f1) f2)
    ∧ (⟨f2, e2, some (e2 + 1)⟩ : IntegrityViolation)
        ∈ check_files m (corrupt_file (corrupt_file m f1) f2) := by
  have hcc : corrupt_file (corrupt_file m f1) f2
      = m.map fun q => (q.1, (fun x d => if x = f1 ∨ x = f2 then d + 1 else d) q.1 q.2) := by
    unfold corrupt_file
    rw [List.map_map]
    apply List.map_congr_left
    intro q _
    by_cases hq1 : q.1 = f1
    · simp [Function.comp, hq1, hne, Ne.symm hne]
    · by_cases hq2 : q.1 = f2 <;> simp [Function.comp, hq1, hq2, hne, Ne.symm hne]
  have hlook : ∀ p ∈ m, (corrupt_file (corrupt_file m f1) f2).lookup p.1
      = some (if p.1 = f1 ∨ p.1 = f2 then p.2 + 1 else p.2) := by
    intro p hp
    rw [hcc]
    simpa using
      lookup_map_digest (fun x d => if x = f1 ∨ x = f2 then d + 1 else d) m hnd p hp
  rw [check_files_of_lookup (fun x d => if x = f1 ∨ x = f2 then d + 1 else d)
    (corrupt_file (corrupt_file m f1) f2) m hlook]
  have hcong : ∀ p ∈ m,
      (if (if p.1 = f1 ∨ p.1 = f2 then p.2 + 1 else p.2) = p.2 then none
        else some (⟨p.1, p.2, some (if p.1 = f1 ∨ p.1 = f2 then p.2 + 1 else p.2)⟩ :
          IntegrityViolation))
      = if p.1 = f1 ∨ p.1 = f2
        then some (⟨p.1, p.2, some (p.2 + 1)⟩ : IntegrityViolation) else none := by
    intro p _
    by_cases hc : p.1 = f1 ∨ p.1 = f2 <;> simp [hc]
  rw [List.filterMap_congr hcong,
    filterMap_if (fun p : String × Nat => p.1 = f1 ∨ p.1 = f2)
      (fun p : String × Nat => (⟨p.1, p.2, some (p.2 + 1)⟩ : IntegrityViolation)) m]
  refine ⟨?_, ?_, ?_⟩
  · rw [List.length_map, ← List.countP_eq_length_filter, countP_key_or f1 f2 hne,
      List.countP_eq_length_filter, List.countP_eq_length_filter,
      filter_key_single m f1 e1 hnd h1, filter_key_single m f2 e2 hnd h2]
    rfl
  · exact List.mem_map_of_mem _ (List.mem_filter.mpr ⟨h1, by simp⟩)
  · exact List.mem_map_of_mem _ (List.mem_filter.mpr ⟨h2, by simp⟩)

theorem validate_loop_length (v : Repo → Except String Unit) :
    ∀ rs : List Repo, (validate_loop v rs).length = rs.countP fun r => !(v r).isOk := by
  intro rs
  induction rs with
  | nil => rfl
  | cons r rs ih =>
    cases hv : v r with
    | ok u => simp [validate_loop, hv, List.countP_cons, ih, Except.isOk, Except.toBool]
    | error e => simp [validate_loop, hv, List.countP_cons, ih, Except.isOk, Except.toBool]

theorem except_isOk_iff (e : Except String Unit) : e.isOk = true ↔ e = Except.ok () := by
  cases e with
  | ok u => cases u; simp [Except.isOk, Except.toBool]
  | error s => simp [Except.isOk, Except.toBool]

theorem validate_loop_empty_iff (v : Repo → Except String Unit) (rs : List Repo) :
    (validate_loop v rs).length = 0 ↔ ∀ r ∈ rs, v r = Except.ok () := by
  rw [validate_loop_length, List.countP_eq_zero]
  constructor
  · intro h r hr
    have h2 := h r hr
    rw [← except_isOk_iff]
    simpa using h2
  · intro h r hr
    simp [h r hr, Except.isOk, Except.toBool]

theorem countP_insert_by_rid (p : Repo → Bool) (r : Repo) :
    ∀ l : List Repo, (insert_by_rid r l).countP p = (r :: l).countP p := by
  intro l
  induction l with
  | nil => rfl
  | cons x l ih =>
    by_cases h : r.rid ≤ x.rid
    · simp [insert_by_rid, h]
    · simp only [insert_by_rid, if_neg h, List.countP_cons, ih]
      omega

theorem countP_sort_by_rid (p : Repo → Bool) :
    ∀ l : List Repo, (sort_by_rid l).countP p = l.countP p := by
  intro l
  induction l with
  | nil => rfl
  | cons x l ih =>
    simp only [sort_by_rid, countP_insert_by_rid, List.countP_cons, ih]

theorem length_insert_by_rid (r : Repo) :
    ∀ l : List Repo, (insert_by_rid r l).length = l.length + 1 := by
  intro l
  induction l with
  | nil => rfl
  | cons x l ih =>
    by_cases h : r.rid ≤ x.rid
    · simp [insert_by_rid, h]
    · simp only [insert_by_rid, if_neg h, List.length_cons, ih]

theorem length_sort_by_rid :
    ∀ l : List Repo, (sort_by_rid l).length = l.length := by
  intro l
  induction l with
  | nil => rfl
  | cons x l ih =>
    simp only [sort_by_rid, length_insert_by_rid, List.length_cons, ih]

theorem parse_dirs_length (c : List Repo) :
    ∀ ns l, parse_dirs c ns = Except.ok l → l.length = ns.length := by
  intro ns
  induction ns with
  | nil =>
    intro l h
    simp only [parse_dirs] at h
    cases h
    rfl
  | cons n ns ih =>
    intro l h
    simp only [parse_dirs] at h
    cases hf : from_dirpath c n with
    | error e => rw [hf] at h; cases h
    | ok r =>
      rw [hf] at h
      cases hp : parse_dirs c ns with
      | error e => rw [hp] at h; cases h
      | ok l0 =>
        rw [hp] at h
        cases h
        simp [ih l0 hp]

theorem filter_and_not_installed (l : List Repo) (inst : Repo → Bool) (p : Repo → Bool) :
    (l.filter p).filter (fun r => !inst r) = l.filter (fun r => p r && !inst r) := by
  rw [List.filter_filter]
  exact List.filter_congr fun r _ => Bool.and_comm (!inst r) (p r)

/-! ## Claim theorems -/

/-- C2: if `install(d, root)` fails or is interrupted at any point before the
final rename into place, no directory for `d` appears under the root
afterwards: `isInstalled` stays false at every pre-rename state and the set of
directories under the root is exactly the initial one (no residual or
partially populated directory); only the final atomic-rename state makes the
descriptor's directory visible. -/
theorem install_interrupted_invisible (fs : FsState) (d : Repo) (nfiles : Nat)
    (h : is_installed_fs d fs = false) :
    (∀ s ∈ (install_trace fs d nfiles).dropLast,
        is_installed_fs d s = false ∧ s.rootDirs = fs.rootDirs)
    ∧ (install_trace fs d nfiles).getLast?
        = some ⟨repo_dirname d :: fs.rootDirs, fs.staging⟩
    ∧ is_installed_fs d ⟨repo_dirname d :: fs.rootDirs, fs.staging⟩ = true := by
  refine ⟨?_, ?_, ?_⟩
  · intro s hs
    rw [show (install_trace fs d nfiles).dropLast
        = (List.range (nfiles + 1)).map
            (fun k => (⟨fs.rootDirs, (repo_dirname d, k) :: fs.staging⟩ : FsState))
        from by simp [install_trace]] at hs
    obtain ⟨k, _, rfl⟩ := List.mem_map.mp hs
    exact ⟨h, rfl⟩
  · simp [install_trace]
  · simp [is_installed_fs]

/-- C2 witness: a concrete interrupted install (three-file archive) over a
root containing one unrelated directory. -/
theorem install_interrupted_invisible_witness :
    is_installed_fs repo_nc_pbe_sr ⟨["other-dir"], []⟩ = false
    ∧ ((∀ s ∈ (install_trace ⟨["other-dir"], []⟩ repo_nc_pbe_sr 3).dropLast,
          is_installed_fs repo_nc_pbe_sr s = false ∧ s.rootDirs = ["other-dir"])
        ∧ (install_trace ⟨["other-dir"], []⟩ repo_nc_pbe_sr 3).getLast?
            = some ⟨repo_dirname repo_nc_pbe_sr :: ["other-dir"], []⟩
        ∧ is_installed_fs repo_nc_pbe_sr ⟨repo_dirname repo_nc_pbe_sr :: ["other-dir"], []⟩
            = true) :=
  ⟨by decide, install_interrupted_invisible ⟨["other-dir"], []⟩ repo_nc_pbe_sr 3 (by decide)⟩

/-- C4: `validate` scans exhaustively and reports per-file violations: no
bundle at the descriptor's directory is the only fatal case
(`NotInstalledError`); any present bundle — partially installed or corrupted —
yields a violation list, not a fatal error; a fresh, successful install
validates to an empty list; corrupting one file yields exactly one violation
naming that file; corrupting two distinct files yields exactly two
violations, one naming each. -/
theorem validate_exhaustive_per_file (bundles : String → Option Bundle) (d : Repo)
    (m : List (String × Nat)) (f1 f2 : String) (e1 e2 : Nat)
    (hnd : (m.map Prod.fst).Nodup) (h1 : (f1, e1) ∈ m) (h2 : (f2, e2) ∈ m)
    (hne : f1 ≠ f2) :
    (bundles (repo_dirname d) = none →
        validate_at bundles d = Except.error "NotInstalledError")
    ∧ (∀ b, bundles (repo_dirname d) = some b →
        validate_at bundles d = Except.ok (check_files b.manifest b.files))
    ∧ validate_repo (some ⟨m, m⟩) = Except.ok []
    ∧ validate_repo (some ⟨m, corrupt_file m f1⟩)
        = Except.ok [⟨f1, e1, some (e1 + 1)⟩]
    ∧ (∃ vs, validate_repo (some ⟨m, corrupt_file (corrupt_file m f1) f2⟩) = Except.ok vs
        ∧ vs.length = 2
        ∧ (⟨f1, e1, some (e1 + 1)⟩ : IntegrityViolation) ∈ vs
        ∧ (⟨f2, e2, some (e2 + 1)⟩ : IntegrityViolation) ∈ vs) := by
  refine ⟨?_, ?_, ?_, ?_, ?_⟩
  · intro hb
    simp [validate_at, hb, validate_repo]
  · intro b hb
    simp [validate_at, hb, validate_repo]
  · simp [validate_repo, check_files_fresh m hnd]
  · simp [validate_repo, check_files_corrupt_single m f1 e1 hnd h1]
  · exact ⟨check_files m (corrupt_file (corrupt_file m f1) f2), rfl,
      check_files_corrupt_two m f1 f2 e1 e2 hnd h1 h2 hne⟩

/-- C4 witness: a concrete two-file manifest. -/
theorem validate_exhaustive_per_file_witness :
    ((["H.psp8", "O.psp8"] : List String).Nodup
      ∧ ("H.psp8", 10) ∈ [("H.psp8", 10), ("O.psp8", 20)]
      ∧ ("O.psp8", 20) ∈ [("H.psp8", 10), ("O.psp8", 20)]
      ∧ "H.psp8" ≠ "O.psp8")
    ∧ validate_repo (some ⟨[("H.psp8", 10), ("O.psp8", 20)],
        [("H.psp8", 10), ("O.psp8", 20)]⟩) = Except.ok []
    ∧ validate_repo (some ⟨[("H.psp8", 10), ("O.psp8", 20)],
        corrupt_file [("H.psp8", 10), ("O.psp8", 20)] "H.psp8"⟩)
        = Except.ok [⟨"H.psp8", 10, some 11⟩]
    ∧ validate_repo none = Except.error "NotInstalledError" := by
  have h := validate_exhaustive_per_file (fun _ => none) repo_nc_pbe_sr
    [("H.psp8", 10), ("O.psp8", 20)] "H.psp8" "O.psp8" 10 20
    (by decide) (by decide) (by decide) (by decide)
  exact ⟨⟨by decide, by decide, by decide, by decide⟩, h.2.2.1, h.2.2.2.1,
    h.1 rfl⟩

/-- C8: `directoryFor` is a pure function of the descriptor and the root
(its value is the root joined with the descriptor's deterministic directory
name, nothing else), and over the Registry it is collision-free: distinct
registered descriptors map to distinct directories under every root. -/
theorem directoryFor_pure_injective :
    (∀ (d : Repo) (root : String), directoryFor d root = root ++ "/" ++ repo_dirname d)
    ∧ ∀ d1 ∈ ALL_REPOS, ∀ d2 ∈ ALL_REPOS, d1 ≠ d2 →
        ∀ root : String, directoryFor d1 root ≠ directoryFor d2 root := by
  refine ⟨fun d root => rfl, ?_⟩
  have hd : ∀ d1 ∈ ALL_REPOS, ∀ d2 ∈ ALL_REPOS, d1 ≠ d2 →
      repo_dirname d1 ≠ repo_dirname d2 := by decide
  intro d1 h1 d2 h2 hne root heq
  apply hd d1 h1 d2 h2 hne
  have h3 := congrArg String.data heq
  simp only [directoryFor, String.data_append] at h3
  exact String.ext (List.append_cancel_left h3)

/-- C8 witness: two concrete registered descriptors and a concrete root. -/
theorem directoryFor_pure_injective_witness :
    repo_nc_pbe_sr ∈ ALL_REPOS ∧ repo_paw_pbe ∈ ALL_REPOS
    ∧ repo_nc_pbe_sr ≠ repo_paw_pbe
    ∧ directoryFor repo_nc_pbe_sr "/home/u/.abinit/pseudos"
        ≠ directoryFor repo_paw_pbe "/home/u/.abinit/pseudos" :=
  ⟨by decide, by decide, by decide,
    directoryFor_pure_injective.2 repo_nc_pbe_sr (by decide) repo_paw_pbe (by decide)
      (by decide) "/home/u/.abinit/pseudos"⟩

/-- C1: when the `list` command runs with checksum validation enabled and
returns normally, `validate_checksums` is attempted for every repository of
the batch regardless of earlier failures (the exception count equals the
count of failing repositories over the whole sorted batch, which covers every
directory of the root), every raised exception is collected, the collected
exceptions are printed together at the end of the output, and the return
value is the number of exceptions — zero iff no repository failed. -/
theorem abips_list_checksum_batch (env : Env) (opts : Options) (res : ListResult)
    (hcs : opts.checksums = true) (hok : abips_list env opts = Except.ok res) :
    res.excs = validate_loop env.validate res.repos
    ∧ res.retcode = res.excs.length
    ∧ res.excs.length = res.repos.countP (fun r => !(env.validate r).isOk)
    ∧ (res.retcode = 0 ↔ ∀ r ∈ res.repos, env.validate r = Except.ok ())
    ∧ res.repos.length = (env.listing.filter env.isDir).length
    ∧ ∃ pre, res.out = pre ++ res.excs := by
  by_cases he : (env.listing.filter env.isDir).isEmpty
  · have hok2 : (Except.ok (⟨0, [], [], ["Could not find any pseudopotential repository installed"]⟩ : ListResult)
          : Except String ListResult)
        = Except.ok res := by
      rw [← hok]
      simp [abips_list, he]
    cases hok2
    refine ⟨rfl, rfl, rfl, by simp, ?_, ⟨_, (List.append_nil _).symm⟩⟩
    simp [List.isEmpty_iff.mp he]
  · rw [show abips_list env opts
        = (match parse_dirs env.allRepos (env.listing.filter env.isDir) with
          | Except.error e => Except.error e
          | Except.ok repos0 =>
            let repos := sort_by_rid repos0
            let excs := validate_loop env.validate repos
            let out :=
              if excs.isEmpty
              then ["The following pseudopotential repositories are installed:"]
              else ["The following pseudopotential repositories are installed:"]
                ++ ["List of exceptions raised by validate_checksums:"] ++ excs
            Except.ok ⟨excs.length, repos, excs, out⟩)
        from by simp [abips_list, he, hcs]] at hok
    cases hp : parse_dirs env.allRepos (env.listing.filter env.isDir) with
    | error e => rw [hp] at hok; cases hok
    | ok repos0 =>
      rw [hp] at hok
      simp only at hok
      cases hok
      refine ⟨rfl, rfl, validate_loop_length env.validate _, ?_, ?_, ?_⟩
      · exact validate_loop_empty_iff env.validate _
      · simp [length_sort_by_rid, parse_dirs_length env.allRepos _ repos0 hp]
      · by_cases hex : (validate_loop env.validate (sort_by_rid repos0)).isEmpty
        · exact ⟨["The following pseudopotential repositories are installed:"],
            by simp [hex, List.isEmpty_iff.mp hex]⟩
        · exact ⟨["The following pseudopotential repositories are installed:"]
              ++ ["List of exceptions raised by validate_checksums:"],
            by simp [hex]⟩

/-- C1 witness: one installed repository whose validation raises `boom`. -/
theorem abips_list_checksum_batch_witness :
    opts_checksums.checksums = true
    ∧ abips_list env_validate_fail opts_checksums = Except.ok res_validate_fail
    ∧ (res_validate_fail.excs
          = validate_loop env_validate_fail.validate res_validate_fail.repos
      ∧ res_validate_fail.retcode = res_validate_fail.excs.length
      ∧ res_validate_fail.excs.length
          = res_validate_fail.repos.countP
              (fun r => !(env_validate_fail.validate r).isOk)
      ∧ (res_validate_fail.retcode = 0
          ↔ ∀ r ∈ res_validate_fail.repos,
              env_validate_fail.validate r = Except.ok ())
      ∧ res_validate_fail.repos.length
          = (env_validate_fail.listing.filter env_validate_fail.isDir).length
      ∧ ∃ pre, res_validate_fail.out = pre ++ res_validate_fail.excs) :=
  ⟨rfl, rfl, abips_list_checksum_batch env_validate_fail opts_checksums res_validate_fail rfl rfl⟩

/-- C3: `repos_from_id_list` returns one descriptor per requested id, in the
order of the input id list (the descriptor at position `k` carries the id
requested at position `k`, so duplicate requests yield duplicate entries);
and whenever some requested id matches no registered descriptor, it fails
with `UnknownRepositoryId` naming a requested unmatched id, returning no
partial result. -/
theorem repos_from_id_list_order_and_unknown (catalog : List Repo) (ids : List Nat) :
    (∀ l, repos_from_id_list catalog ids = Except.ok l →
        l.length = ids.length
        ∧ ∀ k (hk : k < l.length) (hk2 : k < ids.length),
            (l.get ⟨k, hk⟩).rid = ids.get ⟨k, hk2⟩ ∧ l.get ⟨k, hk⟩ ∈ catalog)
    ∧ ((∃ i ∈ ids, ∀ r ∈ catalog, r.rid ≠ i) →
        ∃ j, repos_from_id_list catalog ids = Except.error j
          ∧ j ∈ ids ∧ ∀ r ∈ catalog, r.rid ≠ j) := by
  constructor
  · induction ids with
    | nil =>
      intro l h
      simp only [repos_from_id_list] at h
      cases h
      exact ⟨rfl, fun k hk _ => absurd hk (Nat.not_lt_zero k)⟩
    | cons i rest ih =>
      intro l h
      simp only [repos_from_id_list] at h
      cases hf : catalog.find? (fun r => r.rid == i) with
      | none => rw [hf] at h; cases h
      | some r =>
        rw [hf] at h
        cases hp : repos_from_id_list catalog rest with
        | error j => rw [hp] at h; cases h
        | ok l0 =>
          rw [hp] at h
          cases h
          obtain ⟨ihlen, ihget⟩ := ih l0 hp
          refine ⟨by simp [ihlen], ?_⟩
          intro k hk hk2
          cases k with
          | zero =>
            refine ⟨?_, List.mem_of_find?_eq_some hf⟩
            have hb := List.find?_some hf
            simpa using hb
          | succ k =>
            exact ihget k (by simpa using hk) (by simpa using hk2)
  · induction ids with
    | nil =>
      intro h
      obtain ⟨i, hi, _⟩ := h
      cases hi
    | cons i rest ih =>
      intro h
      obtain ⟨i0, hi0, hun⟩ := h
      cases hf : catalog.find? (fun r => r.rid == i) with
      | none =>
        refine ⟨i, by simp [repos_from_id_list, hf], List.mem_cons_self i rest, ?_⟩
        intro r hr
        have hnb := List.find?_eq_none.mp hf r hr
        simpa using hnb
      | some r =>
        have hi0r : i0 ∈ rest := by
          rcases List.mem_cons.mp hi0 with rfl | hmem
          · exfalso
            have hb := List.find?_some hf
            exact hun r (List.mem_of_find?_eq_some hf) (by simpa using hb)
          · exact hmem
        obtain ⟨j, hj, hjmem, hjun⟩ := ih ⟨i0, hi0r, hun⟩
        exact ⟨j, by simp [repos_from_id_list, hf, hj], List.mem_cons_of_mem i hjmem, hjun⟩

/-- C3 witness: the spec's example `byIds([5, 5, 99])` over the registry (99
unmatched) fails naming 99, and `byIds([5, 5])` yields the id-5 descriptor
twice. -/
theorem repos_from_id_list_order_and_unknown_witness :
    (∃ i ∈ [5, 5, 99], ∀ r ∈ ALL_REPOS, r.rid ≠ i)
    ∧ (∃ j, repos_from_id_list ALL_REPOS [5, 5, 99] = Except.error j
        ∧ j ∈ [5, 5, 99] ∧ ∀ r ∈ ALL_REPOS, r.rid ≠ j)
    ∧ repos_from_id_list ALL_REPOS [5, 5] = Except.ok [repo_paw_pbe, repo_paw_pbe] :=
  ⟨⟨99, by decide, by decide⟩,
    (repos_from_id_list_order_and_unknown ALL_REPOS [5, 5, 99]).2 ⟨99, by decide, by decide⟩,
    rfl⟩

/-- C5: each install-driving command (`nc_get`, `paw_get`, `get_byid`)
filters its selected descriptors by `is_installed` and — when installation is
not vetoed at the prompt — calls `install` exactly on the selected descriptors
not already installed at the time of the check; and when every selected
descriptor is already installed, no install call is made, no confirmation
prompt is shown, and the command returns after printing a message. -/
theorem install_cmds_filter_by_installed (env : Env) (opts : Options) (sel : List Repo)
    (hsel : repos_from_id_list env.allRepos opts.id_list = Except.ok sel)
    (hgo : opts.yes = true ∨ user_wants_to_abort env.answer = false) :
    (abips_nc_get env opts).installs
        = (env.allRepos.filter Repo.isnc).filter (fun r => !env.is_installed r)
    ∧ (abips_paw_get env opts).installs
        = (env.allRepos.filter Repo.ispaw).filter (fun r => !env.is_installed r)
    ∧ (∀ res, abips_get_byid env opts = Except.ok res →
        res.installs = sel.filter (fun r => !env.is_installed r))
    ∧ ((∀ r ∈ env.allRepos.filter Repo.isnc, env.is_installed r = true) →
        abips_nc_get env opts = ⟨0, [], false, false⟩)
    ∧ ((∀ r ∈ env.allRepos.filter Repo.ispaw, env.is_installed r = true) →
        abips_paw_get env opts = ⟨0, [], false, false⟩)
    ∧ ((∀ r ∈ sel, env.is_installed r = true) →
        abips_get_byid env opts = Except.ok ⟨1, [], false, true⟩) := by
  have hcond : (!opts.yes && user_wants_to_abort env.answer) = false := by
    rcases hgo with h | h <;> simp [h]
  have hnc : (env.allRepos.filter Repo.isnc).filter (fun r => !env.is_installed r)
      = env.allRepos.filter (fun r => r.isnc && !env.is_installed r) :=
    filter_and_not_installed env.allRepos env.is_installed Repo.isnc
  have hpaw : (env.allRepos.filter Repo.ispaw).filter (fun r => !env.is_installed r)
      = env.allRepos.filter (fun r => r.ispaw && !env.is_installed r) :=
    filter_and_not_installed env.allRepos env.is_installed Repo.ispaw
  refine ⟨?_, ?_, ?_, ?_, ?_, ?_⟩
  · rw [hnc]
    by_cases h : (env.allRepos.filter fun r => r.isnc && !env.is_installed r).isEmpty
    · simp [abips_nc_get, h, List.isEmpty_iff.mp h]
    · simp [abips_nc_get, h, hcond]
  · rw [hpaw]
    by_cases h : (env.allRepos.filter fun r => r.ispaw && !env.is_installed r).isEmpty
    · simp [abips_paw_get, h, List.isEmpty_iff.mp h]
    · simp [abips_paw_get, h, hcond]
  · intro res hres
    rw [show abips_get_byid env opts
        = (if (sel.filter fun r => !env.is_installed r).isEmpty
          then Except.ok ⟨1, [], false, true⟩
          else Except.ok ⟨0, sel.filter fun r => !env.is_installed r, !opts.yes, true⟩)
        from by simp [abips_get_byid, hsel, hcond]] at hres
    by_cases h : (sel.filter fun r => !env.is_installed r).isEmpty
    · rw [if_pos h] at hres
      cases hres
      simp [List.isEmpty_iff.mp h]
    · rw [if_neg h] at hres
      cases hres
      rfl
  · intro hall
    have h : (env.allRepos.filter fun r => r.isnc && !env.is_installed r) = [] := by
      rw [List.filter_eq_nil_iff]
      intro r hr
      by_cases hc : r.isnc
      · simp [hall r (List.mem_filter.mpr ⟨hr, hc⟩)]
      · simp [hc]
    simp [abips_nc_get, h]
  · intro hall
    have h : (env.allRepos.filter fun r => r.ispaw && !env.is_installed r) = [] := by
      rw [List.filter_eq_nil_iff]
      intro r hr
      by_cases hc : r.ispaw
      · simp [hall r (List.mem_filter.mpr ⟨hr, hc⟩)]
      · simp [hc]
    simp [abips_paw_get, h]
  · intro hall
    have h : (sel.filter fun r => !env.is_installed r) = [] := by
      rw [List.filter_eq_nil_iff]
      intro r hr
      simp [hall r hr]
    simp [abips_get_byid, hsel, h]

/-- C5 witness: `--yes`, `id_list [4]`, repository 4 not installed. -/
theorem install_cmds_filter_by_installed_witness :
    repos_from_id_list env_fresh.allRepos opts_yes_id4.id_list = Except.ok [repo_paw_lda]
    ∧ (opts_yes_id4.yes = true ∨ user_wants_to_abort env_fresh.answer = false)
    ∧ ((abips_nc_get env_fresh opts_yes_id4).installs
        = (env_fresh.allRepos.filter Repo.isnc).filter (fun r => !env_fresh.is_installed r)
      ∧ (abips_paw_get env_fresh opts_yes_id4).installs
        = (env_fresh.allRepos.filter Repo.ispaw).filter (fun r => !env_fresh.is_installed r)
      ∧ (∀ res, abips_get_byid env_fresh opts_yes_id4 = Except.ok res →
          res.installs = [repo_paw_lda].filter (fun r => !env_fresh.is_installed r))
      ∧ ((∀ r ∈ env_fresh.allRepos.filter Repo.isnc, env_fresh.is_installed r = true) →
          abips_nc_get env_fresh opts_yes_id4 = ⟨0, [], false, false⟩)
      ∧ ((∀ r ∈ env_fresh.allRepos.filter Repo.ispaw, env_fresh.is_installed r = true) →
          abips_paw_get env_fresh opts_yes_id4 = ⟨0, [], false, false⟩)
      ∧ ((∀ r ∈ [repo_paw_lda], env_fresh.is_installed r = true) →
          abips_get_byid env_fresh opts_yes_id4 = Except.ok ⟨1, [], false, true⟩)) :=
  ⟨rfl, Or.inl rfl,
    install_cmds_filter_by_installed env_fresh opts_yes_id4 [repo_paw_lda] rfl (Or.inl rfl)⟩

/-- C6: the Installer is called only after consent: with `--yes` no prompt is
shown and the not-yet-installed selection is installed; without `--yes`, an
answer that lowercases and strips to `n` or `no` makes the command return 2
with no install call for any descriptor. -/
theorem consent_gate (env : Env) (opts : Options) :
    (opts.yes = true →
        (abips_nc_get env opts).prompted = false
        ∧ (abips_paw_get env opts).prompted = false
        ∧ (∀ res, abips_get_byid env opts = Except.ok res → res.prompted = false)
        ∧ (abips_nc_get env opts).installs
            = env.allRepos.filter (fun r => r.isnc && !env.is_installed r))
    ∧ ∀ a, opts.yes = false → env.answer = some a → py_strip (py_lower a) ∈ ["n", "no"] →
        ((env.allRepos.filter (fun r => r.isnc && !env.is_installed r)).isEmpty = false →
            abips_nc_get env opts = ⟨2, [], true, false⟩)
        ∧ ((env.allRepos.filter (fun r => r.ispaw && !env.is_installed r)).isEmpty = false →
            abips_paw_get env opts = ⟨2, [], true, false⟩)
        ∧ (∀ sel, repos_from_id_list env.allRepos opts.id_list = Except.ok sel →
            (sel.filter (fun r => !env.is_installed r)).isEmpty = false →
            abips_get_byid env opts = Except.ok ⟨2, [], true, false⟩) := by
  constructor
  · intro hyes
    refine ⟨?_, ?_, ?_, ?_⟩
    · by_cases h : (env.allRepos.filter fun r => r.isnc && !env.is_installed r).isEmpty <;>
        simp [abips_nc_get, h, hyes]
    · by_cases h : (env.allRepos.filter fun r => r.ispaw && !env.is_installed r).isEmpty <;>
        simp [abips_paw_get, h, hyes]
    · intro res hres
      cases hsel : repos_from_id_list env.allRepos opts.id_list with
      | error i => simp [abips_get_byid, hsel] at hres
      | ok sel =>
        rw [show abips_get_byid env opts
            = (if (sel.filter fun r => !env.is_installed r).isEmpty
              then Except.ok ⟨1, [], false, true⟩
              else Except.ok ⟨0, sel.filter fun r => !env.is_installed r, !opts.yes, true⟩)
            from by simp [abips_get_byid, hsel, hyes]] at hres
        by_cases h : (sel.filter fun r => !env.is_installed r).isEmpty
        · rw [if_pos h] at hres; cases hres; rfl
        · rw [if_neg h] at hres; cases hres; simp [hyes]
    · by_cases h : (env.allRepos.filter fun r => r.isnc && !env.is_installed r).isEmpty
      · simp [abips_nc_get, h, List.isEmpty_iff.mp h]
      · simp [abips_nc_get, h, hyes]
  · intro a hyes hans hmem
    have huw : user_wants_to_abort env.answer = true := by
      simp [user_wants_to_abort, hans, hmem]
    refine ⟨?_, ?_, ?_⟩
    · intro h
      simp [abips_nc_get, h, hyes, huw]
    · intro h
      simp [abips_paw_get, h, hyes, huw]
    · intro sel hsel h
      simp [abips_get_byid, hsel, h, hyes, huw]

/-- C6 witness: answer `" No "` without `--yes` aborts `nc_get` with return
code 2 and no installs; with `--yes` the prompt is skipped. -/
theorem consent_gate_witness :
    opts_plain.yes = false
    ∧ env_answer_no.answer = some " No "
    ∧ py_strip (py_lower " No ") ∈ ["n", "no"]
    ∧ (env_answer_no.allRepos.filter
        (fun r => r.isnc && !env_answer_no.is_installed r)).isEmpty = false
    ∧ abips_nc_get env_answer_no opts_plain = ⟨2, [], true, false⟩
    ∧ opts_yes_id4.yes = true
    ∧ (abips_nc_get env_fresh opts_yes_id4).prompted = false :=
  ⟨rfl, rfl, by decide, by decide,
    ((consent_gate env_answer_no opts_plain).2 " No " rfl rfl (by decide)).1 (by decide),
    rfl, ((consent_gate env_fresh opts_yes_id4).1 rfl).1⟩

/-- C9: on `EOFError` (closed stdin) `user_wants_to_abort` returns `False`,
so an install command run without `--yes` proceeds to install as if the user
had consented; likewise any answer that does not lowercase-and-strip to `n`
or `no` (including an empty answer) lets installation proceed. -/
theorem eof_or_other_answer_proceeds (env : Env) (opts : Options)
    (hyes : opts.yes = false)
    (hans : env.answer = none
      ∨ ∃ a, env.answer = some a ∧ py_strip (py_lower a) ∉ ["n", "no"]) :
    user_wants_to_abort none = false
    ∧ user_wants_to_abort env.answer = false
    ∧ ((env.allRepos.filter (fun r => r.isnc && !env.is_installed r)).isEmpty = false →
        abips_nc_get env opts
          = ⟨0, env.allRepos.filter (fun r => r.isnc && !env.is_installed r), true, true⟩) := by
  have huw : user_wants_to_abort env.answer = false := by
    rcases hans with h | ⟨a, ha, hnm⟩
    · simp [user_wants_to_abort, h]
    · simp [user_wants_to_abort, ha, hnm]
  refine ⟨rfl, huw, ?_⟩
  intro h
  simp [abips_nc_get, h, hyes, huw]

/-- C9 witness: stdin closed (answer `none`), no `--yes`, nothing installed:
`nc_get` installs all registered NC repositories. -/
theorem eof_or_other_answer_proceeds_witness :
    opts_plain.yes = false
    ∧ env_eof.answer = none
    ∧ (user_wants_to_abort none = false
      ∧ user_wants_to_abort env_eof.answer = false
      ∧ ((env_eof.allRepos.filter (fun r => r.isnc && !env_eof.is_installed r)).isEmpty
            = false →
          abips_nc_get env_eof opts_plain
            = ⟨0, env_eof.allRepos.filter (fun r => r.isnc && !env_eof.is_installed r),
                true, true⟩)) :=
  ⟨rfl, rfl, eof_or_other_answer_proceeds env_eof opts_plain rfl (Or.inl rfl)⟩

/-- C10: the `show` command keeps, of the descriptors resolved from the
requested ids, exactly those not installed, and calls `get_pseudos` with
`table_accuracy = "standard"` on exactly that subset; when every requested
descriptor is installed it prints the installed listing and returns 1 with no
table shown. -/
theorem show_filters_by_installed (env : Env) (opts : Options) (sel : List Repo)
    (hsel : repos_from_id_list env.allRepos opts.id_list = Except.ok sel) :
    (∀ res, abips_show env opts = Except.ok res →
        res.pseudosCalls
          = (sel.filter (fun r => !env.is_installed r)).map (fun r => (r, "standard")))
    ∧ ((∀ r ∈ sel, env.is_installed r = true) →
        abips_show env opts = Except.ok ⟨1, [], true⟩) := by
  constructor
  · intro res hres
    rw [show abips_show env opts
        = (if (sel.filter fun r => !env.is_installed r).isEmpty
          then Except.ok ⟨1, [], true⟩
          else Except.ok ⟨0, (sel.filter fun r => !env.is_installed r).map
              (fun r => (r, "standard")), false⟩)
        from by simp [abips_show, hsel]] at hres
    by_cases h : (sel.filter fun r => !env.is_installed r).isEmpty
    · rw [if_pos h] at hres
      cases hres
      simp [List.isEmpty_iff.mp h]
    · rw [if_neg h] at hres
      cases hres
      rfl
  · intro hall
    have h : (sel.filter fun r => !env.is_installed r) = [] := by
      rw [List.filter_eq_nil_iff]
      intro r hr
      simp [hall r hr]
    simp [abips_show, hsel, h]

/-- C10 witness: ids `[4, 5]` with repository 4 installed: `get_pseudos` is
called exactly on repository 5 with accuracy `standard`. -/
theorem show_filters_by_installed_witness :
    repos_from_id_list env_paw4_installed.allRepos opts_ids_4_5.id_list
        = Except.ok [repo_paw_lda, repo_paw_pbe]
    ∧ ((∀ res, abips_show env_paw4_installed opts_ids_4_5 = Except.ok res →
          res.pseudosCalls
            = ([repo_paw_lda, repo_paw_pbe].filter
                (fun r => !env_paw4_installed.is_installed r)).map
                (fun r => (r, "standard")))
      ∧ ((∀ r ∈ [repo_paw_lda, repo_paw_pbe], env_paw4_installed.is_installed r = true) →
          abips_show env_paw4_installed opts_ids_4_5 = Except.ok ⟨1, [], true⟩)) :=
  ⟨rfl, show_filters_by_installed env_paw4_installed opts_ids_4_5
    [repo_paw_lda, repo_paw_pbe] rfl⟩

/-- C7 counterexample: the caller does not filter unrelated directories out.
On a root holding one recognized repository directory and one unrelated
directory `not-a-repo`, the `list` command passes the unrelated name to
`from_dirpath` (it filters only non-directory entries) and the resulting
`UnrecognizedDirectoryName` error propagates: the command fails instead of
tolerating the unrelated directory. -/
theorem from_dirpath_caller_filter_cex :
    "not-a-repo" ∈ env_unrelated_dir.listing.filter env_unrelated_dir.isDir
    ∧ (∀ r ∈ env_unrelated_dir.allRepos, repo_dirname r ≠ "not-a-repo")
    ∧ abips_list env_unrelated_dir opts_plain
        = Except.error "UnrecognizedDirectoryName: not-a-repo" :=
  ⟨by decide, by decide, rfl⟩

/-- C7 (amended): `from_dirpath` fails with `UnrecognizedDirectoryName` on
any directory name that parses to no known descriptor encoding, never
swallowing the error; the caller (`abips_list`) filters only non-directory
entries, so unrelated directories under the root are passed to it and the
error propagates out of the `list` command rather than being tolerated. -/
theorem from_dirpath_strict_caller_unfiltered (catalog : List Repo) (n : String) :
    ((∀ r ∈ catalog, repo_dirname r ≠ n) →
        from_dirpath catalog n = Except.error ("UnrecognizedDirectoryName: " ++ n))
    ∧ ∀ (env : Env) (opts : Options) (e : String),
        (env.listing.filter env.isDir).isEmpty = false →
        parse_dirs env.allRepos (env.listing.filter env.isDir) = Except.error e →
        abips_list env opts = Except.error e := by
  constructor
  · intro h
    have hf : catalog.find? (fun r => repo_dirname r == n) = none := by
      rw [List.find?_eq_none]
      intro r hr
      simpa using h r hr
    simp [from_dirpath, hf]
  · intro env opts e hne hp
    simp [abips_list, hne, hp]

/-- C7 witness: the unrecognized name `not-a-repo`, and the concrete root of
the counterexample. -/
theorem from_dirpath_strict_caller_unfiltered_witness :
    (∀ r ∈ ALL_REPOS, repo_dirname r ≠ "not-a-repo")
    ∧ from_dirpath ALL_REPOS "not-a-repo"
        = Except.error ("UnrecognizedDirectoryName: " ++ "not-a-repo")
    ∧ (env_unrelated_dir.listing.filter env_unrelated_dir.isDir).isEmpty = false
    ∧ parse_dirs env_unrelated_dir.allRepos
        (env_unrelated_dir.listing.filter env_unrelated_dir.isDir)
        = Except.error "UnrecognizedDirectoryName: not-a-repo"
    ∧ abips_list env_unrelated_dir opts_plain
        = Except.error "UnrecognizedDirectoryName: not-a-repo" :=
  ⟨by decide,
    (from_dirpath_strict_caller_unfiltered ALL_REPOS "not-a-repo").1 (by decide),
    by decide, rfl,
    (from_dirpath_strict_caller_unfiltered ALL_REPOS "not-a-repo").2
      env_unrelated_dir opts_plain "UnrecognizedDirectoryName: not-a-repo"
      (by decide) rfl⟩

end Abips
